import Mathlib

/-!
# ugc_test_task: category repository, engine-error translation, building handlers

A shallow embedding of

* `src/pg/errors.go` (`NewError`),
* `src/src/models/category.go` (`Category.Validate`),
* `src/src/repositories/categories/repository.go` (`New`, `createTable`,
  `createIndexes`, `Insert`),
* `src/http/buildings.go` (`getBuildings`, `newGetBuildingsQuery`,
  `newAddBuildingQuery`),

followed by the properties proved about them.

Conventions.  A Go `error` result is an `Option GoError` (`none` is `nil`).
A `(T, error)` result is a pair or an `Except`.  The storage client is an explicit
state: the statements issued so far, and the engine's answer to the next one.
Writes to standard output and to the logger are not part of the model.
-/

set_option autoImplicit false

/-! ## Errors -/

namespace errors

/-- Modelled from the spec: the `errors` package is not part of the sources at hand.
These are the error kinds the embedded functions name; `InputParamsIsInvalid` is the
spec's `ValidationError`, `Duplicate` its `DuplicateError`, `EmptyType` its generic
`StorageError`. -/
inductive ErrorType where
  | EmptyType
  | Duplicate
  | InputParamsIsInvalid
  | BodyReadErr
  | BodyIsEmpty
  | QueryParseErr
  deriving DecidableEq, Repr

/-- Modelled from the spec: the `errors` package is not part of the sources at hand.
A domain error is a kind, the message it was created with, and the details added to
it afterwards, oldest first. -/
structure Error where
  typ : ErrorType
  msg : String
  details : List String
  deriving DecidableEq, Repr

/-- Modelled from the spec: `errors.<Kind>.New(msg)`, an error of that kind with the
message and no detail. -/
def ErrorType.New (t : ErrorType) (msg : String) : Error :=
  { typ := t, msg := msg, details := [] }

/-- Modelled from the spec: `(...).Add(detail)`, the same error carrying one more
detail ("carries the engine's detail message for diagnostics"). -/
def Error.Add (e : Error) (detail : String) : Error :=
  { e with details := e.details ++ [detail] }

end errors

namespace pgconn

/-- The fields of `*pgconn.PgError` (github.com/jackc/pgconn) that the program and
its `Error()` method read. -/
structure PgError where
  Severity : String
  Code : String
  Message : String
  Detail : String
  deriving DecidableEq, Repr

/-- The method `(*PgError).Error()` of the driver. -/
def PgError.Error (pe : PgError) : String :=
  pe.Severity ++ ": " ++ pe.Message ++ " (SQLSTATE " ++ pe.Code ++ ")"

end pgconn

/-- A non-nil value of Go's `error` interface, by dynamic type: an engine error
`*pgconn.PgError`, a domain error of the `errors` package, or any other error, known
by its text (`fmt.Errorf`, a connection or cancellation error, ...). -/
inductive GoError where
  | pg (e : pgconn.PgError)
  | typed (e : errors.Error)
  | plain (text : String)
  deriving DecidableEq, Repr

/-- The method `err.Error()`.  The text of a domain error is decided by the `errors`
package, which is not at hand: it is the parameter `render`. -/
def GoError.Error (render : errors.Error → String) : GoError → String
  | .pg e => e.Error
  | .typed e => render e
  | .plain text => text

/-- The kind of an error, when it is a domain error. -/
def GoError.kind : GoError → Option errors.ErrorType
  | .typed e => some e.typ
  | _ => none

namespace pg

def UniqueViolationErrCode : String := "23505"

def SyntaxErrorCode : String := "42601"

/-- The function `NewError` of `src/pg/errors.go`. -/
def NewError (err : GoError) : Option GoError :=
  match err with
  | .pg pgErr =>
    if pgErr.Code = UniqueViolationErrCode then
      some (.typed ((errors.ErrorType.Duplicate.New "").Add pgErr.Detail))
    else if pgErr.Code = SyntaxErrorCode then
      some (.typed (errors.ErrorType.InputParamsIsInvalid.New ""))
    else
      some (.typed (errors.ErrorType.EmptyType.New ""))
  | _ => none

/-- One argument of a statement. -/
inductive Arg where
  | str (s : String)
  | int (i : Int)
  deriving DecidableEq, Repr

/-- A statement handed to `Client.Exec`: its text and its arguments. -/
structure Stmt where
  sql : String
  args : List Arg
  deriving DecidableEq, Repr

/-- The storage client, as far as the repository can tell: the statements issued so
far, in order, and how the engine answers a statement after a given history (`none`
is success). -/
structure Client where
  issued : List Stmt
  answer : List Stmt → Stmt → Option GoError

/-- The call `client.Exec(ctx, sql, args...)`: the statement is recorded and the
engine answers. -/
def Client.Exec (c : Client) (s : Stmt) : Client × Option GoError :=
  ({ c with issued := c.issued ++ [s] }, c.answer c.issued s)

end pg

/-! ## Models -/

namespace models

/-- The column names `models.IdKey`, `models.NameKey` and `models.CreateAt`; their
declarations are not part of the sources at hand, so they are parameters. -/
structure Keys where
  IdKey : String
  NameKey : String
  CreateAt : String

/-- The struct `Category`.  `CreateAt` is an `int64`; `len` of a Go string is its
number of bytes. -/
structure Category where
  Id : String
  Name : String
  CreateAt : Int
  deriving DecidableEq, Repr

/-- The method `Category.Validate`. -/
def Category.Validate (k : Keys) (c : Category) : Option GoError :=
  if c.Id.utf8ByteSize = 0 then
    some (.plain ("'" ++ k.IdKey ++ "' is empty"))
  else if c.Name.utf8ByteSize = 0 then
    some (.plain ("'" ++ k.NameKey ++ "' is empty"))
  else if c.CreateAt = 0 then
    some (.plain ("'" ++ k.CreateAt ++ "' is empty"))
  else
    none

end models

/-! ## Category repository -/

namespace categories

open models pg

def TableName : String := "categories"

def categoryFields (k : Keys) : List String := [k.IdKey, k.NameKey, k.CreateAt]

def indexFields (k : Keys) : List String := [k.NameKey, k.CreateAt]

/-- A repository with a client.  The zero value `Repository{}` has none and is
written `none : Option Repository` where the code returns it. -/
structure Repository where
  client : Client

/-- The statement `createTable` builds with go-sqlbuilder. -/
def createTableStmt (k : Keys) : Stmt :=
  { sql := "CREATE TABLE IF NOT EXISTS " ++ TableName ++ " ("
      ++ k.IdKey ++ " uuid primary key not null, "
      ++ k.NameKey ++ " ltree check (" ++ k.NameKey ++ " != ''), "
      ++ k.CreateAt ++ " bigint check (" ++ k.CreateAt ++ " > 0))",
    args := [] }

/-- The method `Repository.createTable`. -/
def Repository.createTable (k : Keys) (r : Repository) : Repository × Option GoError :=
  let (client, err) := r.client.Exec (createTableStmt k)
  match err with
  | some e => ({ client := client }, some e)
  | none => ({ client := client }, none)

/-- The statement of one round of the loop of `createIndexes`. -/
def indexStmt (k : Keys) (indexField : String) : Stmt :=
  let indexType := if indexField = k.NameKey then "gist" else "btree"
  { sql := "create index if not exists " ++ indexField ++ "_idx on " ++ TableName
      ++ " using " ++ indexType ++ " (" ++ indexField ++ ")",
    args := [] }

/-- The loop of `createIndexes` over the fields still to be indexed. -/
def createIndexesLoop (render : errors.Error → String) (k : Keys) :
    List String → Client → Client × Option GoError
  | [], c => (c, none)
  | indexField :: rest, c =>
    let (c1, err) := c.Exec (indexStmt k indexField)
    match err with
    | some e =>
      (c1, some (.plain ("create index for field '" ++ indexField ++ "': "
        ++ e.Error render)))
    | none => createIndexesLoop render k rest c1

/-- The method `Repository.createIndexes`. -/
def Repository.createIndexes (render : errors.Error → String) (k : Keys)
    (r : Repository) : Repository × Option GoError :=
  let (client, err) := createIndexesLoop render k (indexFields k) r.client
  ({ client := client }, err)

/-- The connection settings `pg.Config`, as `main.go` fills them. -/
structure PgConfig where
  Host : String
  Port : String
  Database : String
  User : String
  Password : String

/-- The struct `Config` of the repository packages (`config.go`). -/
structure Config where
  pgConfig : PgConfig

/-- The two functions of package `pg` that `New` calls and that are not part of the
sources at hand: `pg.Config.Validate` and `pg.Connect`. -/
structure PgEnv where
  Validate : PgConfig → Option GoError
  Connect : PgConfig → Except GoError Client

/-- The method `Config.Validate` (`config.go`). -/
def Config.Validate (env : PgEnv) (c : Config) : Option GoError :=
  env.Validate c.pgConfig

/-- What a call of `New` leaves behind: the two results, and the connection it
opened (if it came that far) with the statements issued on it. -/
structure NewResult where
  r : Option Repository
  err : Option GoError
  conn : Option Client

/-- The function `New`.  The returned repository is `none` for the zero value
`Repository{}`. -/
def New (render : errors.Error → String) (k : Keys) (env : PgEnv) (conf : Config) :
    NewResult :=
  match conf.Validate env with
  | some err =>
    { r := none, err := some (.plain ("config is invalid: " ++ err.Error render)),
      conn := none }
  | none =>
    match env.Connect conf.pgConfig with
    | .error err => { r := none, err := some err, conn := none }
    | .ok client =>
      let r : Repository := { client := client }
      match r.createTable k with
      | (r1, some err) =>
        { r := none,
          err := some (.plain ("create '" ++ TableName ++ "' table: " ++ err.Error render)),
          conn := some r1.client }
      | (r1, none) =>
        match r1.createIndexes render k with
        | (r2, some err) => { r := none, err := some err, conn := some r2.client }
        | (r2, none) => { r := some r2, err := none, conn := some r2.client }

/-- The statement `Insert` builds with go-sqlbuilder for the PostgreSQL flavor. -/
def insertStmt (k : Keys) (category : Category) : Stmt :=
  { sql := "INSERT INTO " ++ TableName ++ " (" ++ ", ".intercalate (categoryFields k)
      ++ ") VALUES ($1, $2, $3)",
    args := [.str category.Id, .str category.Name, .int category.CreateAt] }

/-- The method `Repository.Insert`: the repository afterwards (its client has seen
the statements issued) and the returned error. -/
def Repository.Insert (k : Keys) (r : Repository) (category : Category) :
    Repository × Option GoError :=
  match category.Validate k with
  | some err => (r, some err)
  | none =>
    let (client, err) := r.client.Exec (insertStmt k category)
    match err with
    | some e => ({ client := client }, NewError e)
    | none => ({ client := client }, none)

end categories

/-! ## strconv (Go standard library) -/

namespace strconv

/-- The field `Err` of a `*strconv.NumError`. -/
inductive NumErr where
  | ErrSyntax
  | ErrRange
  | ErrBase
  | ErrBitSize
  deriving DecidableEq, Repr

/-- The size of `int` in bits, on a 64-bit platform. -/
def IntSize : Nat := 64

/-- The bytes of a Go string. -/
def bytes (s : String) : List Nat := s.toUTF8.data.toList.map UInt8.toNat

/-- The helper `lower(c)`, which is `c | ('x' - 'X')`. -/
def lower (c : Nat) : Nat := c ||| 32

/-- The `switch` of the loop of `ParseUint` that reads the digit `d` off the byte
`c`, for a base given explicitly (no underscore is accepted then); `none` is its
`default` case. -/
def digit (c : Nat) : Option Nat :=
  if 48 ≤ c ∧ c ≤ 57 then some (c - 48)
  else if 97 ≤ lower c ∧ lower c ≤ 122 then some (lower c - 97 + 10)
  else none

/-- The loop of `ParseUint` over the bytes still to be read; `n` is a `uint64`. -/
def parseUintLoop (base cutoff maxVal : Nat) : List Nat → Nat → Nat × Option NumErr
  | [], n => (n, none)
  | c :: rest, n =>
    match digit c with
    | none => (0, some .ErrSyntax)
    | some d =>
      if d ≥ base then (0, some .ErrSyntax)
      else if n ≥ cutoff then (maxVal, some .ErrRange)
      else
        let n0 := (n * base) % 2 ^ 64
        let n1 := (n0 + d) % 2 ^ 64
        if n1 < n0 ∨ n1 > maxVal then (maxVal, some .ErrRange)
        else parseUintLoop base cutoff maxVal rest n1

/-- The function `strconv.ParseUint(s, base, bitSize)` for an explicit base
`2 ≤ base ≤ 36` (the program passes 10).  Base 0, where the base is read off the
string, is not embedded and is answered as an invalid base. -/
def ParseUint (s : String) (base bitSize : Nat) : Nat × Option NumErr :=
  if s = "" then (0, some .ErrSyntax)
  else if ¬ (2 ≤ base ∧ base ≤ 36) then (0, some .ErrBase)
  else if bitSize > 64 then (0, some .ErrBitSize)
  else
    let bitSize1 := if bitSize = 0 then IntSize else bitSize
    let cutoff := (2 ^ 64 - 1) / base + 1
    let maxVal := 2 ^ bitSize1 - 1
    parseUintLoop base cutoff maxVal (bytes s) 0

/-- The conversion `int64(u)` of a `uint64`. -/
def int64 (u : Nat) : Int :=
  if u % 2 ^ 64 < 2 ^ 63 then (u % 2 ^ 64 : Nat) else ((u % 2 ^ 64 : Nat) : Int) - 2 ^ 64

/-- The negation `-n` of an `int64`. -/
def negInt64 (n : Int) : Int :=
  if n = -(2 ^ 63) then n else -n

/-- The function `strconv.ParseInt(s, base, bitSize)`: the value returned and the
`Err` of the error returned (`none` for a nil error). -/
def ParseInt (s : String) (base bitSize : Nat) : Int × Option NumErr :=
  if s = "" then (0, some .ErrSyntax)
  else
    let neg := s.get 0 = '-'
    let s1 := if s.get 0 = '+' ∨ s.get 0 = '-' then s.drop 1 else s
    let (un, err) := ParseUint s1 base bitSize
    if err ≠ none ∧ err ≠ some .ErrRange then (0, err)
    else
      let bitSize1 := if bitSize = 0 then IntSize else bitSize
      let cutoff := 2 ^ (bitSize1 - 1) % 2 ^ 64
      if ¬ neg ∧ un ≥ cutoff then (int64 (cutoff - 1), some .ErrRange)
      else if neg ∧ un > cutoff then (negInt64 (int64 cutoff), some .ErrRange)
      else
        let n := int64 un
        (if neg then negInt64 n else n, none)

/-! The next four definitions are the vocabulary in which the result of `ParseInt`
is stated by the shape of the string. -/

/-- Whether the byte is one of the decimal digits `0` to `9`. -/
def isDecimalDigit (c : Nat) : Bool := decide (48 ≤ c ∧ c ≤ 57)

/-- The number read in base 10 off a run of decimal digits, continuing from `n`. -/
def decimalFrom (n : Nat) (l : List Nat) : Nat :=
  l.foldl (fun acc c => 10 * acc + (c - 48)) n

/-- The number a run of decimal digits stands for. -/
def decimalValue (l : List Nat) : Nat := decimalFrom 0 l

/-- The bytes of the string after its optional sign. -/
def unsignedBytes (s : String) : List Nat :=
  bytes (if s.get 0 = '+' ∨ s.get 0 = '-' then s.drop 1 else s)

end strconv

/-! ## HTTP handlers for buildings -/

namespace http

/-- The constants the handlers name and whose declarations are not part of the
sources at hand: `models.IdKey`, `models.AddressKey`, `managers.FromDateKey`,
`managers.ToDateKey` and `maxGettingObjects`. -/
structure Consts where
  IdKey : String
  AddressKey : String
  FromDateKey : String
  ToDateKey : String
  maxGettingObjects : Int

/-- The type `url.Values`, a map from a key to its values. -/
abbrev Values := String → List String

/-- The method `url.Values.Get`: the first value of the key, or the empty string. -/
def Values.Get (v : Values) (key : String) : String :=
  match v key with
  | [] => ""
  | x :: _ => x

/-- What the handlers read of a `Request`: `req.Id()`, `req.URL.Query()`, and what
`io.ReadAll(req.Body)` returns (the bytes read and the error). -/
structure Request where
  Id : String
  Query : Values
  ReadAllBody : List UInt8 × Option GoError

/-- The struct `buildings.GetQuery` of the manager package, with the fields the
handler sets; `L` is the type of `Limit`. -/
structure GetQuery (L : Type) where
  ReqId : String
  Id : String
  Address : String
  FromDate : Int
  ToDate : Int
  Limit : L

/-- The function `newGetBuildingsQuery`; `parseLimit` is defined elsewhere in the
package. -/
def newGetBuildingsQuery {L : Type} (k : Consts) (parseLimit : Values → L)
    (req : Request) : GetQuery L :=
  let urlQuery := req.Query
  { ReqId := req.Id,
    Id := urlQuery.Get k.IdKey,
    Address := urlQuery.Get k.AddressKey,
    FromDate := (strconv.ParseInt (urlQuery.Get k.FromDateKey) 10 0).1,
    ToDate := (strconv.ParseInt (urlQuery.Get k.ToDateKey) 10 0).1,
    Limit := parseLimit urlQuery }

/-- One run of `BuildingManager.GetBuildings`, seen from its caller: it either
returns, or calls the callback on a building and goes on according to what the
callback returned. -/
inductive Run (B : Type) where
  | done (err : Option GoError)
  | call (building : B) (next : Option GoError → Run B)

/-- The buildings a run delivers to a callback that always returns nil, in the
order of delivery. -/
def Run.delivered {B : Type} : Run B → List B
  | .done _ => []
  | .call building next => building :: (next none).delivered

/-- The variables the callback of `getBuildings` closes over. -/
structure Acc (B : Type) where
  objectCounter : Int
  buildings : List B

/-- The callback that `getBuildings` passes to the manager. -/
def getBuildingsCallback {B : Type} (building : B) (acc : Acc B) :
    Acc B × Option GoError :=
  ({ objectCounter := acc.objectCounter + 1,
     buildings := acc.buildings ++ [building] }, none)

/-- A run of the manager against the callback of `getBuildings`: the variables
afterwards and the error the manager returns. -/
def Run.exec {B : Type} : Run B → Acc B → Acc B × Option GoError
  | .done err, acc => (acc, err)
  | .call building next, acc =>
    let (acc1, err) := getBuildingsCallback building acc
    (next err).exec acc1

/-- The values of `NewApiError(err)` and `NewEncodingJsonError(msg)`. -/
inductive ApiError where
  | NewApiError (err : GoError)
  | NewEncodingJsonError (msg : String)

/-- The value of `NewLimitExceededWarning()`. -/
inductive Warning where
  | NewLimitExceededWarning
  deriving DecidableEq

/-- A call of a setter of `*Response`. -/
inductive ResponseCall where
  | SetError (e : ApiError)
  | SetData (data : List UInt8)
  | SetWarning (w : Warning)

/-- The method `Api.getBuildings`: the setters it calls on `res`, in order.
`GetBuildings` is the manager, `marshal` is `json.Marshal` on the buildings. -/
def getBuildings {L B : Type} (k : Consts) (parseLimit : Values → L)
    (GetBuildings : GetQuery L → Run B) (marshal : List B → Except GoError (List UInt8))
    (req : Request) : List ResponseCall :=
  let query := newGetBuildingsQuery k parseLimit req
  let (acc, err) := (GetBuildings query).exec { objectCounter := 0, buildings := [] }
  match err with
  | some e => [.SetError (.NewApiError e)]
  | none =>
    match marshal acc.buildings with
    | .error _ => [.SetError (.NewEncodingJsonError "error on encoding buildings to json")]
    | .ok jsonData =>
      if acc.objectCounter ≥ k.maxGettingObjects then
        [.SetData jsonData, .SetWarning .NewLimitExceededWarning]
      else
        [.SetData jsonData]

/-- The struct `buildings.AddQuery` of the manager package: the request id and the
fields the parser fills, of type `P`. -/
structure AddQuery (P : Type) where
  ReqId : String
  payload : P

/-- The zero value `buildings.AddQuery{}`. -/
def AddQuery.zero {P : Type} [Inhabited P] : AddQuery P :=
  { ReqId := "", payload := default }

/-- What a call of `newAddBuildingQuery` does: its two results, and the bodies it
handed to `NewAddQueryFromJson`, in order. -/
structure AddQueryResult (P : Type) where
  query : AddQuery P
  err : Option GoError
  parserCalls : List (List UInt8)

/-- The function `newAddBuildingQuery`; `NewAddQueryFromJson` is the parser of the
manager package. -/
def newAddBuildingQuery {P : Type} [Inhabited P] (render : errors.Error → String)
    (NewAddQueryFromJson : List UInt8 → Except GoError (AddQuery P)) (req : Request) :
    AddQueryResult P :=
  let (body, err) := req.ReadAllBody
  match err with
  | some e =>
    { query := AddQuery.zero,
      err := some (.typed (errors.ErrorType.BodyReadErr.New (e.Error render))),
      parserCalls := [] }
  | none =>
    if body.length = 0 then
      { query := AddQuery.zero,
        err := some (.typed (errors.ErrorType.BodyIsEmpty.New "")),
        parserCalls := [] }
    else
      match NewAddQueryFromJson body with
      | .error e =>
        { query := AddQuery.zero,
          err := some (.typed (errors.ErrorType.QueryParseErr.New (e.Error render))),
          parserCalls := [body] }
      | .ok query =>
        { query := { query with ReqId := req.Id }, err := none, parserCalls := [body] }

end http

/-! ## Sample values -/

/-- Column names as in the spec's schema. -/
def sampleKeys : models.Keys :=
  { IdKey := "id", NameKey := "name", CreateAt := "create_at" }

/-- A client with no history whose engine accepts every statement. -/
def acceptingClient : pg.Client :=
  { issued := [], answer := fun _ _ => none }

/-- A client with no history whose engine answers every statement with `e`. -/
def refusingClient (e : GoError) : pg.Client :=
  { issued := [], answer := fun _ _ => some e }

/-- A category that passes validation. -/
def sampleCategory : models.Category :=
  { Id := "7c9e6679-7425-40de-944b-e07fc1f90ae7", Name := "root.a", CreateAt := 1700000000 }

/-- An engine error for a violated unique constraint. -/
def uniqueViolation : pgconn.PgError :=
  { Severity := "ERROR", Code := "23505",
    Message := "duplicate key value violates unique constraint",
    Detail := "Key (id) already exists." }

/-- Query-parameter names and a limit for the handlers. -/
def sampleConsts : http.Consts :=
  { IdKey := "id", AddressKey := "address", FromDateKey := "from_date",
    ToDateKey := "to_date", maxGettingObjects := 2 }

/-- A request whose query string is `from_date=<value of from>&to_date=<value of to>`. -/
def datesRequest (from_date to_date : String) : http.Request :=
  { Id := "req-1",
    Query := fun key =>
      if key = "from_date" then [from_date] else if key = "to_date" then [to_date] else [],
    ReadAllBody := ([], none) }

/-- A request with the given outcome of reading its body. -/
def bodyRequest (body : List UInt8) (err : Option GoError) : http.Request :=
  { Id := "req-2", Query := fun _ => [], ReadAllBody := (body, err) }

/-- A parser that accepts the one-byte body `[1]` only. -/
def sampleAddQueryFromJson (body : List UInt8) : Except GoError (http.AddQuery String) :=
  if body = [1] then .ok { ReqId := "", payload := "Main street 1" }
  else .error (.plain "unexpected end of JSON input")

/-- A manager that delivers the given buildings one after the other, stops at the
first error the callback returns, and returns nil otherwise. -/
def deliverAll {B : Type} : List B → http.Run B
  | [] => .done none
  | b :: rest => .call b (fun err =>
      match err with
      | some e => .done (some e)
      | none => deliverAll rest)

/-- Settings that pass validation and a connection that yields the client `c`. -/
def sampleEnv (c : pg.Client) : categories.PgEnv :=
  { Validate := fun _ => none, Connect := fun _ => .ok c }

/-- Connection settings of a local engine. -/
def sampleConfig : categories.Config :=
  { pgConfig := { Host := "localhost", Port := "5432", Database := "ugc",
                  User := "ugc", Password := "secret" } }

/-! ## Helper lemmas -/

/-- A string has no bytes exactly when it is the empty string. -/
theorem utf8ByteSize_eq_zero_iff (s : String) : s.utf8ByteSize = 0 ↔ s = "" := by
  constructor
  · intro h
    rcases s with ⟨cs⟩
    cases cs with
    | nil => rfl
    | cons c cs =>
      exfalso
      have hc : 0 < c.utf8Size := Char.utf8Size_pos c
      simp only [String.utf8ByteSize, String.utf8ByteSize.go] at h
      omega
  · rintro rfl
    rfl

/-! ## Engine-error translation -/

/-- C2: for every engine error `e`, `NewError` gives a `Duplicate` error carrying
exactly `e.Detail` when the code is "23505", an `InputParamsIsInvalid` error with no
detail when it is "42601", and for every other code the same `EmptyType` error with
no detail, in which nothing of `e` appears. -/
theorem NewError_of_engine_error (e : pgconn.PgError) :
    (e.Code = "23505" → pg.NewError (.pg e) = some (.typed
        { typ := .Duplicate, msg := "", details := [e.Detail] })) ∧
    (e.Code = "42601" → pg.NewError (.pg e) = some (.typed
        { typ := .InputParamsIsInvalid, msg := "", details := [] })) ∧
    (e.Code ≠ "23505" → e.Code ≠ "42601" → pg.NewError (.pg e) = some (.typed
        { typ := .EmptyType, msg := "", details := [] })) := by
  refine ⟨fun h => ?_, fun h => ?_, fun h1 h2 => ?_⟩
  · simp [pg.NewError, pg.UniqueViolationErrCode, h, errors.ErrorType.New, errors.Error.Add]
  · simp [pg.NewError, pg.UniqueViolationErrCode, pg.SyntaxErrorCode, h, errors.ErrorType.New]
  · simp [pg.NewError, pg.UniqueViolationErrCode, pg.SyntaxErrorCode, h1, h2,
      errors.ErrorType.New]

/-- The unique-violation error is translated to a `Duplicate` error with its detail. -/
theorem NewError_of_engine_error_witness :
    pg.NewError (.pg uniqueViolation) = some (.typed
      { typ := .Duplicate, msg := "", details := ["Key (id) already exists."] }) :=
  (NewError_of_engine_error uniqueViolation).1 (by decide)

/-! ## Category validation and insertion -/

/-- C3, as the code has it: `Validate` returns no error if and only if `Id` is
non-empty, `Name` is non-empty and `CreateAt` is not zero. -/
theorem Validate_ok_iff_fields_set (k : models.Keys) (c : models.Category) :
    c.Validate k = none ↔ c.Id ≠ "" ∧ c.Name ≠ "" ∧ c.CreateAt ≠ 0 := by
  unfold models.Category.Validate
  simp only [utf8ByteSize_eq_zero_iff]
  by_cases h1 : c.Id = "" <;> by_cases h2 : c.Name = "" <;>
    by_cases h3 : c.CreateAt = 0 <;> simp [h1, h2, h3]

/-- C3 as stated fails: a category with a negative `CreateAt` passes `Validate`,
so "no error if and only if ... `CreateAt > 0`" does not hold for every category. -/
theorem Validate_accepts_negative_CreateAt :
    ¬ ∀ (k : models.Keys) (c : models.Category),
        c.Validate k = none ↔ c.Id ≠ "" ∧ c.Name ≠ "" ∧ c.CreateAt > 0 := by
  intro h
  have h1 := (h sampleKeys { Id := "a", Name := "root", CreateAt := -1 }).1 (by decide)
  exact absurd h1.2.2 (by decide)

/-- C1, the code at the failing input: the category passes validation and `Exec`
fails with an error that is not an engine error, yet `Insert` returns nil. -/
theorem Insert_returns_nil_on_connection_failure :
    sampleCategory.Validate sampleKeys = none ∧
    ((refusingClient (.plain "context deadline exceeded")).Exec
        (categories.insertStmt sampleKeys sampleCategory)).2
      = some (.plain "context deadline exceeded") ∧
    (categories.Repository.Insert sampleKeys
        { client := refusingClient (.plain "context deadline exceeded") }
        sampleCategory).2 = none := by
  decide

/-- C4, the code at the failing input: for a category with an empty id `Insert`
returns the plain error of `Validate`, which has no domain kind, and not an error
of kind `InputParamsIsInvalid`. -/
theorem Insert_invalid_category_error_is_untyped :
    (categories.Repository.Insert sampleKeys { client := acceptingClient }
        { Id := "", Name := "root.a", CreateAt := 1700000000 }).2
      = some (.plain "'id' is empty") ∧
    ((categories.Repository.Insert sampleKeys { client := acceptingClient }
        { Id := "", Name := "root.a", CreateAt := 1700000000 }).2.bind GoError.kind)
      ≠ some errors.ErrorType.InputParamsIsInvalid := by
  decide

/-- C5: when `Validate` returns an error, `Insert` returns that same error and
issues no statement: the client is the one it was given, with the same history. -/
theorem Insert_rejected_before_Exec (k : models.Keys) (r : categories.Repository)
    (c : models.Category) (e : GoError) (h : c.Validate k = some e) :
    (categories.Repository.Insert k r c).2 = some e ∧
    (categories.Repository.Insert k r c).1 = r ∧
    (categories.Repository.Insert k r c).1.client.issued = r.client.issued := by
  simp [categories.Repository.Insert, h]

/-- A category without a name is rejected and nothing is issued. -/
theorem Insert_rejected_before_Exec_witness :
    (categories.Repository.Insert sampleKeys { client := acceptingClient }
        { Id := "x", Name := "", CreateAt := 5 }).2 = some (.plain "'name' is empty") ∧
    (categories.Repository.Insert sampleKeys { client := acceptingClient }
        { Id := "x", Name := "", CreateAt := 5 }).1.client.issued = [] :=
  have h := Insert_rejected_before_Exec sampleKeys { client := acceptingClient }
    { Id := "x", Name := "", CreateAt := 5 } (.plain "'name' is empty") (by decide)
  ⟨h.1, h.2.2⟩

/-! ## Numeric query parameters -/

/-- The loop of `ParseUint` fails with a syntax or a range error only. -/
theorem parseUintLoop_err (base cutoff maxVal : Nat) (l : List Nat) (n : Nat) :
    (strconv.parseUintLoop base cutoff maxVal l n).2 = none ∨
    (strconv.parseUintLoop base cutoff maxVal l n).2 = some .ErrSyntax ∨
    (strconv.parseUintLoop base cutoff maxVal l n).2 = some .ErrRange := by
  induction l generalizing n with
  | nil => simp [strconv.parseUintLoop]
  | cons c rest ih =>
    unfold strconv.parseUintLoop
    cases strconv.digit c with
    | none => simp
    | some d =>
      simp only
      split_ifs
      · simp
      · simp
      · simp
      · exact ih _

/-- In base 10 with size 0 `ParseUint` fails with a syntax or a range error only. -/
theorem ParseUint_err (s : String) :
    (strconv.ParseUint s 10 0).2 = none ∨
    (strconv.ParseUint s 10 0).2 = some .ErrSyntax ∨
    (strconv.ParseUint s 10 0).2 = some .ErrRange := by
  unfold strconv.ParseUint
  split_ifs <;> first | exact parseUintLoop_err _ _ _ _ _ | omega | simp

/-- In base 10 with size 0 `ParseInt` succeeds, or returns 0 with a syntax error, or
returns the bound on the side of the sign with a range error. -/
theorem ParseInt_cases (s : String) :
    ((strconv.ParseInt s 10 0).2 = none ∨
      (strconv.ParseInt s 10 0).2 = some .ErrSyntax ∨
      (strconv.ParseInt s 10 0).2 = some .ErrRange) ∧
    ((strconv.ParseInt s 10 0).2 = some .ErrSyntax → (strconv.ParseInt s 10 0).1 = 0) ∧
    ((strconv.ParseInt s 10 0).2 = some .ErrRange →
      (strconv.ParseInt s 10 0).1 = if s.get 0 = '-' then -(2 ^ 63) else 2 ^ 63 - 1) := by
  unfold strconv.ParseInt
  by_cases hs : s = ""
  · simp [hs]
  · simp only [hs, if_false]
    generalize hs1 : (if s.get 0 = '+' ∨ s.get 0 = '-' then s.drop 1 else s) = s1
    have hu := ParseUint_err s1
    rcases hp : strconv.ParseUint s1 10 0 with ⟨un, err⟩
    rw [hp] at hu
    have e1 : strconv.int64 (2 ^ (strconv.IntSize - 1) % 2 ^ 64 - 1) = 2 ^ 63 - 1 := by decide
    have e2 : strconv.negInt64 (strconv.int64 (2 ^ (strconv.IntSize - 1) % 2 ^ 64))
        = -(2 ^ 63) := by decide
    simp only [if_true, e1, e2] at hu ⊢
    by_cases hneg : s.get 0 = '-'
    · rcases hu with h | h | h <;> subst h <;> simp [hneg] <;> split_ifs <;> simp
    · rcases hu with h | h | h <;> subst h <;> simp [hneg] <;> split_ifs <;> simp

/-- A string has no bytes exactly when it is the empty string. -/
theorem bytes_eq_nil_iff (s : String) : strconv.bytes s = [] ↔ s = "" := by
  constructor
  · intro h
    rcases s with ⟨cs⟩
    cases cs with
    | nil => rfl
    | cons c cs =>
      exfalso
      have hl := congrArg List.length h
      have hc : 0 < c.utf8Size := Char.utf8Size_pos c
      simp [strconv.bytes, String.toUTF8] at hl
      omega
  · rintro rfl
    rfl

/-- Reading no digit leaves the number as it is. -/
theorem decimalFrom_nil (n : Nat) : strconv.decimalFrom n [] = n := rfl

/-- Reading one more digit multiplies by ten and adds the digit. -/
theorem decimalFrom_cons (n c : Nat) (cs : List Nat) :
    strconv.decimalFrom n (c :: cs) = strconv.decimalFrom (10 * n + (c - 48)) cs := rfl

/-- Reading digits never makes the number smaller. -/
theorem decimalFrom_ge (l : List Nat) (n : Nat) : n ≤ strconv.decimalFrom n l := by
  induction l generalizing n with
  | nil => simp [decimalFrom_nil]
  | cons c cs ih =>
    have h := ih (10 * n + (c - 48))
    rw [decimalFrom_cons]
    omega

/-- The `switch` of `ParseUint` reads a decimal digit as its value, below 10. -/
theorem digit_of_decimal (c : Nat) (h : strconv.isDecimalDigit c = true) :
    strconv.digit c = some (c - 48) ∧ c - 48 < 10 := by
  simp only [strconv.isDecimalDigit, decide_eq_true_eq] at h
  simp only [strconv.digit, h, and_self, if_true, true_and]
  omega

/-- For any other byte the `switch` of `ParseUint` has no digit, or one that is at
least 10 and so refused in base 10. -/
theorem digit_of_other (c : Nat) (h : strconv.isDecimalDigit c = false) :
    strconv.digit c = none ∨ ∃ d, strconv.digit c = some d ∧ 10 ≤ d := by
  simp only [strconv.isDecimalDigit, decide_eq_false_iff_not] at h
  simp only [strconv.digit, h, if_false]
  split_ifs
  · exact Or.inr ⟨_, rfl, by omega⟩
  · exact Or.inl rfl

/-- The loop of `ParseUint` in base 10 on 64 bits: a range error once the leading
decimal digits reach `2 ^ 64`, else a syntax error when another byte follows them,
else their number. -/
theorem parseUintLoop_decimal (l : List Nat) (n : Nat) (hn : n < 2 ^ 64) :
    strconv.parseUintLoop 10 ((2 ^ 64 - 1) / 10 + 1) (2 ^ 64 - 1) l n =
      if 2 ^ 64 ≤ strconv.decimalFrom n (l.takeWhile strconv.isDecimalDigit) then
        (2 ^ 64 - 1, some .ErrRange)
      else if (l.takeWhile strconv.isDecimalDigit).length < l.length then
        (0, some .ErrSyntax)
      else (strconv.decimalFrom n (l.takeWhile strconv.isDecimalDigit), none) := by
  induction l generalizing n with
  | nil =>
    simp only [strconv.parseUintLoop, List.takeWhile_nil, decimalFrom_nil,
      List.length_nil, lt_self_iff_false, if_false]
    rw [if_neg (by omega)]
  | cons c rest ih =>
    unfold strconv.parseUintLoop
    cases hd : strconv.isDecimalDigit c with
    | true =>
      obtain ⟨h1, h2⟩ := digit_of_decimal c hd
      simp only [h1, List.takeWhile_cons, hd, if_true, decimalFrom_cons,
        List.length_cons]
      have hge := decimalFrom_ge (rest.takeWhile strconv.isDecimalDigit) (10 * n + (c - 48))
      rw [if_neg (by omega)]
      by_cases hc : n ≥ (2 ^ 64 - 1) / 10 + 1
      · rw [if_pos hc, if_pos (by omega)]
      · rw [if_neg hc]
        have hm : n * 10 % 2 ^ 64 = n * 10 := Nat.mod_eq_of_lt (by omega)
        simp only [hm]
        by_cases ho : 2 ^ 64 ≤ n * 10 + (c - 48)
        · have hlt : (n * 10 + (c - 48)) % 2 ^ 64 < n * 10 := by omega
          rw [if_pos (Or.inl hlt), if_pos (by omega)]
        · have hm1 : (n * 10 + (c - 48)) % 2 ^ 64 = n * 10 + (c - 48) :=
            Nat.mod_eq_of_lt (by omega)
          rw [hm1, if_neg (by omega), ih _ (by omega)]
          have e : n * 10 + (c - 48) = 10 * n + (c - 48) := by ring
          simp only [e, Nat.add_lt_add_iff_right]
    | false =>
      simp only [List.takeWhile_cons, hd, Bool.false_eq_true, if_false, decimalFrom_nil,
        List.length_nil, List.length_cons]
      rw [if_neg (by omega)]
      simp only [Nat.zero_lt_succ, if_true]
      rcases digit_of_other c hd with h | ⟨d, h, hd10⟩
      · simp [h]
      · simp [h, hd10]

/-- The result of `ParseUint` in base 10 with size 0, by the shape of the string. -/
theorem ParseUint_decimal (s : String) :
    strconv.ParseUint s 10 0 =
      if 2 ^ 64 ≤ strconv.decimalValue ((strconv.bytes s).takeWhile strconv.isDecimalDigit) then
        (2 ^ 64 - 1, some .ErrRange)
      else if strconv.bytes s = [] ∨
          ((strconv.bytes s).takeWhile strconv.isDecimalDigit).length
            < (strconv.bytes s).length then
        (0, some .ErrSyntax)
      else (strconv.decimalValue ((strconv.bytes s).takeWhile strconv.isDecimalDigit), none) := by
  by_cases hs : s = ""
  · subst hs
    have hb : strconv.bytes "" = [] := rfl
    simp [strconv.ParseUint, hb, strconv.decimalValue, decimalFrom_nil]
  · have hb : strconv.bytes s ≠ [] := fun h => hs ((bytes_eq_nil_iff s).1 h)
    have hl := parseUintLoop_decimal (strconv.bytes s) 0 (by norm_num)
    have e64 : (2 : Nat) ^ strconv.IntSize - 1 = 2 ^ 64 - 1 := rfl
    unfold strconv.ParseUint
    rw [if_neg hs, if_neg (by omega), if_neg (by omega)]
    simp only [if_true, e64, hl, strconv.decimalValue, hb, false_or]

/-- The conversion `int64(u)` keeps a value below `2 ^ 63`. -/
theorem int64_of_lt (v : Nat) (h : v < 2 ^ 63) : strconv.int64 v = (v : Int) := by
  unfold strconv.int64
  have hm : v % 2 ^ 64 = v := Nat.mod_eq_of_lt (by omega)
  rw [hm, if_pos h]

/-- The result of `ParseInt` in base 10 with size 0 on a non-empty string, by the
shape of the string. -/
theorem ParseInt_decimal (s : String) (hs : s ≠ "") :
    strconv.ParseInt s 10 0 =
      if 2 ^ 64 ≤ strconv.decimalValue
          ((strconv.unsignedBytes s).takeWhile strconv.isDecimalDigit) then
        (if s.get 0 = '-' then -(2 ^ 63) else 2 ^ 63 - 1, some .ErrRange)
      else if strconv.unsignedBytes s = [] ∨
          ((strconv.unsignedBytes s).takeWhile strconv.isDecimalDigit).length
            < (strconv.unsignedBytes s).length then
        (0, some .ErrSyntax)
      else if s.get 0 = '-' then
        (if strconv.decimalValue
            ((strconv.unsignedBytes s).takeWhile strconv.isDecimalDigit) ≤ 2 ^ 63 then
          (-(strconv.decimalValue
            ((strconv.unsignedBytes s).takeWhile strconv.isDecimalDigit) : Int), none)
        else (-(2 ^ 63), some .ErrRange))
      else
        (if strconv.decimalValue
            ((strconv.unsignedBytes s).takeWhile strconv.isDecimalDigit) < 2 ^ 63 then
          ((strconv.decimalValue
            ((strconv.unsignedBytes s).takeWhile strconv.isDecimalDigit) : Int), none)
        else (2 ^ 63 - 1, some .ErrRange)) := by
  unfold strconv.ParseInt strconv.unsignedBytes
  rw [if_neg hs]
  generalize (if s.get 0 = '+' ∨ s.get 0 = '-' then s.drop 1 else s) = s1
  have e3 : 2 ^ (strconv.IntSize - 1) % 2 ^ 64 = 2 ^ 63 := by decide
  have f1 : strconv.int64 9223372036854775807 = 9223372036854775807 := by decide
  have f2 : strconv.negInt64 (strconv.int64 9223372036854775808)
      = -9223372036854775808 := by decide
  simp only [if_true, e3]
  rw [ParseUint_decimal s1]
  generalize strconv.decimalValue ((strconv.bytes s1).takeWhile strconv.isDecimalDigit) = v
  by_cases hv : 2 ^ 64 ≤ v
  · simp only [if_pos hv]
    by_cases hneg : s.get 0 = '-'
    · simp [hneg, f2]
    · simp [hneg, f1]
  · simp only [if_neg hv]
    by_cases hbad : (strconv.bytes s1 = [] ∨
        ((strconv.bytes s1).takeWhile strconv.isDecimalDigit).length
          < (strconv.bytes s1).length)
    · simp [if_pos hbad]
    · simp only [if_neg hbad]
      by_cases hneg : s.get 0 = '-'
      · by_cases h63 : v ≤ 9223372036854775808
        · have hnv : strconv.negInt64 (strconv.int64 v) = -(v : Int) := by
            rcases Nat.lt_or_ge v (2 ^ 63) with hlt | hge
            · rw [int64_of_lt v hlt]
              unfold strconv.negInt64
              rw [if_neg (by omega)]
            · have hv63 : v = 2 ^ 63 := by omega
              subst hv63
              decide
          have hgt : ¬ 9223372036854775808 < v := by omega
          simp [hneg, h63, hgt, hnv]
        · have hgt : 9223372036854775808 < v := by omega
          simp [hneg, h63, hgt, f2]
      · by_cases h63 : v < 9223372036854775808
        · have hge : ¬ 9223372036854775808 ≤ v := by omega
          simp [hneg, h63, hge, int64_of_lt v (by omega)]
        · have hge : 9223372036854775808 ≤ v := by omega
          simp [hneg, h63, hge, f1]

/-- A list whose elements all pass is its own leading run. -/
theorem takeWhile_of_all {p : Nat → Bool} (l : List Nat) (h : l.all p = true) :
    l.takeWhile p = l := by
  induction l with
  | nil => rfl
  | cons c cs ih =>
    simp only [List.all_cons, Bool.and_eq_true] at h
    simp [List.takeWhile_cons, h.1, ih h.2]

/-- A list with an element that does not pass is longer than its leading run. -/
theorem takeWhile_length_lt_of_not_all {p : Nat → Bool} (l : List Nat)
    (h : l.all p = false) : (l.takeWhile p).length < l.length := by
  induction l with
  | nil => simp at h
  | cons c cs ih =>
    cases hc : p c with
    | false => simp [List.takeWhile_cons, hc]
    | true =>
      have h2 : cs.all p = false := by simpa [List.all_cons, hc] using h
      have := ih h2
      simp only [List.takeWhile_cons, hc, if_true, List.length_cons]
      omega

/-- C6, as the code has it: each of `FromDate` and `ToDate` is the value `ParseInt`
returns for the parameter string in base 10 with size 0, its error discarded.  For
the empty string that is 0.  For an optional sign followed by one or more decimal
digits it is the number when it fits an `int64`, and otherwise the largest `int64`,
or the smallest for a string starting with `-`.  For any other string (a sign alone,
or a byte that is not a decimal digit) it is 0, unless the decimal digits before the
first other byte already reach `2 ^ 64`, and then it is that same bound.  In terms of
the error: `ParseInt` succeeds, or returns 0 with a syntax error, or the bound with a
range error. -/
theorem newGetBuildingsQuery_dates {L : Type} (k : http.Consts)
    (parseLimit : http.Values → L) (req : http.Request) :
    (http.newGetBuildingsQuery k parseLimit req).FromDate
      = (strconv.ParseInt (req.Query.Get k.FromDateKey) 10 0).1 ∧
    (http.newGetBuildingsQuery k parseLimit req).ToDate
      = (strconv.ParseInt (req.Query.Get k.ToDateKey) 10 0).1 ∧
    strconv.ParseInt "" 10 0 = (0, some .ErrSyntax) ∧
    (∀ s : String, s ≠ "" →
      (strconv.unsignedBytes s ≠ [] →
        (strconv.unsignedBytes s).all strconv.isDecimalDigit = true →
        strconv.ParseInt s 10 0 =
          if s.get 0 = '-' then
            (if strconv.decimalValue (strconv.unsignedBytes s) ≤ 2 ^ 63 then
              (-(strconv.decimalValue (strconv.unsignedBytes s) : Int), none)
            else (-(2 ^ 63), some .ErrRange))
          else
            (if strconv.decimalValue (strconv.unsignedBytes s) < 2 ^ 63 then
              ((strconv.decimalValue (strconv.unsignedBytes s) : Int), none)
            else (2 ^ 63 - 1, some .ErrRange))) ∧
      ((strconv.unsignedBytes s = [] ∨
          (strconv.unsignedBytes s).all strconv.isDecimalDigit = false) →
        strconv.ParseInt s 10 0 =
          if 2 ^ 64 ≤ strconv.decimalValue
              ((strconv.unsignedBytes s).takeWhile strconv.isDecimalDigit) then
            (if s.get 0 = '-' then -(2 ^ 63) else 2 ^ 63 - 1, some .ErrRange)
          else (0, some .ErrSyntax))) ∧
    (∀ s : String,
      ((strconv.ParseInt s 10 0).2 = none ∨
        (strconv.ParseInt s 10 0).2 = some .ErrSyntax ∨
        (strconv.ParseInt s 10 0).2 = some .ErrRange) ∧
      ((strconv.ParseInt s 10 0).2 = some .ErrSyntax → (strconv.ParseInt s 10 0).1 = 0) ∧
      ((strconv.ParseInt s 10 0).2 = some .ErrRange →
        (strconv.ParseInt s 10 0).1 = if s.get 0 = '-' then -(2 ^ 63) else 2 ^ 63 - 1)) := by
  refine ⟨rfl, rfl, by decide, fun s hs => ⟨fun hne hall => ?_, fun hbad => ?_⟩,
    ParseInt_cases⟩
  · rw [ParseInt_decimal s hs, takeWhile_of_all _ hall]
    by_cases hv : 2 ^ 64 ≤ strconv.decimalValue (strconv.unsignedBytes s)
    · rw [if_pos hv]
      by_cases hneg : s.get 0 = '-'
      · rw [if_pos hneg, if_pos hneg, if_neg (by omega)]
      · rw [if_neg hneg, if_neg hneg, if_neg (by omega)]
    · rw [if_neg hv, if_neg (by simp [hne])]
  · rw [ParseInt_decimal s hs]
    by_cases hv : 2 ^ 64 ≤ strconv.decimalValue
        ((strconv.unsignedBytes s).takeWhile strconv.isDecimalDigit)
    · rw [if_pos hv, if_pos hv]
    · rw [if_neg hv, if_neg hv, if_pos]
      rcases hbad with h | h
      · exact Or.inl h
      · exact Or.inr (takeWhile_length_lt_of_not_all _ h)

/-- With `from_date=1700000000` the field is that number; with
`to_date=99999999999999999999x` it is the largest `int64`. -/
theorem newGetBuildingsQuery_dates_witness :
    (http.newGetBuildingsQuery sampleConsts (fun _ => ())
        (datesRequest "1700000000" "99999999999999999999x")).FromDate = 1700000000 ∧
    (http.newGetBuildingsQuery sampleConsts (fun _ => ())
        (datesRequest "1700000000" "99999999999999999999x")).ToDate = 2 ^ 63 - 1 :=
  have h := newGetBuildingsQuery_dates sampleConsts (fun _ => ())
    (datesRequest "1700000000" "99999999999999999999x")
  ⟨h.1.trans ((congrArg Prod.fst
      ((h.2.2.2.1 "1700000000" (by decide)).1 (by decide) (by decide))).trans (by decide)),
   h.2.1.trans ((congrArg Prod.fst
      ((h.2.2.2.1 "99999999999999999999x" (by decide)).2 (by decide))).trans (by decide))⟩

/-- C6 as stated fails: `from_date=9223372036854775808` is out of the integer
range, `ParseInt` reports an error, and the field is 9223372036854775807, not 0. -/
theorem newGetBuildingsQuery_out_of_range_not_zero :
    ¬ ∀ (k : http.Consts) (parseLimit : http.Values → Unit) (req : http.Request),
        ((strconv.ParseInt (req.Query.Get k.FromDateKey) 10 0).2 ≠ none →
          (http.newGetBuildingsQuery k parseLimit req).FromDate = 0) ∧
        ((strconv.ParseInt (req.Query.Get k.ToDateKey) 10 0).2 ≠ none →
          (http.newGetBuildingsQuery k parseLimit req).ToDate = 0) := by
  intro h
  have h1 := (h sampleConsts (fun _ => ()) (datesRequest "9223372036854775808" "")).1
    (by decide)
  exact absurd h1 (by decide)

/-! ## Schema setup -/

/-- The loop issues the statements of a leading part of the fields, of all of them
when it returns nil. -/
theorem createIndexesLoop_issued (render : errors.Error → String) (k : models.Keys)
    (fs : List String) (c : pg.Client) :
    ∃ n, n ≤ fs.length ∧
      (categories.createIndexesLoop render k fs c).1.issued
        = c.issued ++ (fs.map (categories.indexStmt k)).take n ∧
      ((categories.createIndexesLoop render k fs c).2 = none → n = fs.length) := by
  induction fs generalizing c with
  | nil => exact ⟨0, by simp [categories.createIndexesLoop]⟩
  | cons f rest ih =>
    unfold categories.createIndexesLoop
    cases h : c.answer c.issued (categories.indexStmt k f) with
    | some e => exact ⟨1, by simp [pg.Client.Exec, h]⟩
    | none =>
      obtain ⟨n, hn, hi, hl⟩ := ih (c.Exec (categories.indexStmt k f)).1
      refine ⟨n + 1, by simpa using hn, ?_, ?_⟩
      · simp only [pg.Client.Exec, h] at hi ⊢
        simp [hi]
      · simp only [pg.Client.Exec, h] at hl ⊢
        intro h0
        simp [hl h0]

/-- C9: `createIndexes` issues a leading part of the statements for `indexFields`,
which are the name field then the created-at field, in that order; each statement
reads "create index if not exists <field>_idx on categories using <type> (<field>)"
with type "gist" exactly for the name field and "btree" otherwise; it stops at the
first statement that fails, with an error that names that field, and returns nil
when both succeed. -/
theorem createIndexes_statements (render : errors.Error → String) (k : models.Keys)
    (r : categories.Repository) :
    categories.indexFields k = [k.NameKey, k.CreateAt] ∧
    (∀ f, categories.indexStmt k f =
      { sql := "create index if not exists " ++ f ++ "_idx on " ++ "categories" ++ " using "
          ++ (if f = k.NameKey then "gist" else "btree") ++ " (" ++ f ++ ")",
        args := [] }) ∧
    (∃ n, n ≤ (categories.indexFields k).length ∧
      (r.createIndexes render k).1.client.issued = r.client.issued
        ++ ((categories.indexFields k).map (categories.indexStmt k)).take n) ∧
    (∀ e, r.client.answer r.client.issued (categories.indexStmt k k.NameKey) = some e →
      (r.createIndexes render k).1.client.issued
        = r.client.issued ++ [categories.indexStmt k k.NameKey] ∧
      (r.createIndexes render k).2 = some (.plain
        ("create index for field '" ++ k.NameKey ++ "': " ++ e.Error render))) ∧
    (r.client.answer r.client.issued (categories.indexStmt k k.NameKey) = none →
      ∀ e, r.client.answer (r.client.issued ++ [categories.indexStmt k k.NameKey])
          (categories.indexStmt k k.CreateAt) = some e →
      (r.createIndexes render k).1.client.issued = r.client.issued
        ++ [categories.indexStmt k k.NameKey, categories.indexStmt k k.CreateAt] ∧
      (r.createIndexes render k).2 = some (.plain
        ("create index for field '" ++ k.CreateAt ++ "': " ++ e.Error render))) ∧
    (r.client.answer r.client.issued (categories.indexStmt k k.NameKey) = none →
      r.client.answer (r.client.issued ++ [categories.indexStmt k k.NameKey])
          (categories.indexStmt k k.CreateAt) = none →
      (r.createIndexes render k).1.client.issued = r.client.issued
        ++ [categories.indexStmt k k.NameKey, categories.indexStmt k k.CreateAt] ∧
      (r.createIndexes render k).2 = none) := by
  refine ⟨rfl, fun f => ?_, ?_, fun e h => ?_, fun h1 e h2 => ?_, fun h1 h2 => ?_⟩
  · simp only [categories.indexStmt, categories.TableName]
  · obtain ⟨n, hn, hi, _⟩ :=
      createIndexesLoop_issued render k (categories.indexFields k) r.client
    exact ⟨n, hn, hi⟩
  · simp [categories.Repository.createIndexes, categories.indexFields,
      categories.createIndexesLoop, pg.Client.Exec, h]
  · simp [categories.Repository.createIndexes, categories.indexFields,
      categories.createIndexesLoop, pg.Client.Exec, h1, h2]
  · simp [categories.Repository.createIndexes, categories.indexFields,
      categories.createIndexesLoop, pg.Client.Exec, h1, h2]

/-- When the engine refuses the first index statement, only that one is issued and
the error names the name field. -/
theorem createIndexes_statements_witness :
    (categories.Repository.createIndexes (fun _ => "") sampleKeys
        { client := refusingClient (.plain "connection refused") }).1.client.issued
      = [{ sql := "create index if not exists name_idx on categories using gist (name)",
           args := [] }] ∧
    (categories.Repository.createIndexes (fun _ => "") sampleKeys
        { client := refusingClient (.plain "connection refused") }).2
      = some (.plain "create index for field 'name': connection refused") :=
  have h := (createIndexes_statements (fun _ => "") sampleKeys
    { client := refusingClient (.plain "connection refused") }).2.2.2.1
    (.plain "connection refused") rfl
  ⟨h.1.trans (by decide), h.2.trans (by decide)⟩

/-- An error comes with the zero value, and a repository with a nil error comes
exactly when every step succeeded. -/
theorem New_result_cases (render : errors.Error → String)
    (k : models.Keys) (env : categories.PgEnv) (conf : categories.Config) :
    ((categories.New render k env conf).err ≠ none →
      (categories.New render k env conf).r = none) ∧
    (((categories.New render k env conf).r ≠ none ∧
        (categories.New render k env conf).err = none) ↔
      (conf.Validate env = none ∧ ∃ c, env.Connect conf.pgConfig = .ok c ∧
        c.answer c.issued (categories.createTableStmt k) = none ∧
        c.answer (c.issued ++ [categories.createTableStmt k])
          (categories.indexStmt k k.NameKey) = none ∧
        c.answer (c.issued ++ [categories.createTableStmt k,
            categories.indexStmt k k.NameKey])
          (categories.indexStmt k k.CreateAt) = none)) := by
  cases hv : conf.Validate env with
  | some e => simp [categories.New, hv]
  | none =>
    cases hc : env.Connect conf.pgConfig with
    | error e => simp [categories.New, hv, hc]
    | ok c =>
      cases h1 : c.answer c.issued (categories.createTableStmt k) with
      | some e =>
        simp [categories.New, hv, hc, categories.Repository.createTable, pg.Client.Exec, h1]
      | none =>
        cases h2 : c.answer (c.issued ++ [categories.createTableStmt k])
            (categories.indexStmt k k.NameKey) with
        | some e =>
          simp [categories.New, hv, hc, categories.Repository.createTable,
            pg.Client.Exec, h1, categories.Repository.createIndexes,
            categories.indexFields, categories.createIndexesLoop, h2]
        | none =>
          cases h3 : c.answer (c.issued ++ [categories.createTableStmt k,
              categories.indexStmt k k.NameKey]) (categories.indexStmt k k.CreateAt) with
          | some e =>
            simp [categories.New, hv, hc, categories.Repository.createTable,
              pg.Client.Exec, h1, categories.Repository.createIndexes,
              categories.indexFields, categories.createIndexesLoop, h2, h3]
          | none =>
            simp [categories.New, hv, hc, categories.Repository.createTable,
              pg.Client.Exec, h1, categories.Repository.createIndexes,
              categories.indexFields, categories.createIndexesLoop, h2, h3]

/-- C7: `New` returns an error together with the zero-value repository whenever
connecting, the table statement or one of the two index statements fails; when the
table statement fails no index statement is issued; and `New` returns a repository
with a nil error exactly when the configuration is valid and the connection, the
table statement and both index statements succeeded. -/
theorem New_fails_unless_every_step_succeeds (render : errors.Error → String)
    (k : models.Keys) (env : categories.PgEnv) (conf : categories.Config) :
    ((categories.New render k env conf).err ≠ none →
      (categories.New render k env conf).r = none) ∧
    (∀ e, conf.Validate env = none → env.Connect conf.pgConfig = .error e →
      (categories.New render k env conf).r = none ∧
      (categories.New render k env conf).err = some e) ∧
    (∀ c e, conf.Validate env = none → env.Connect conf.pgConfig = .ok c →
      c.answer c.issued (categories.createTableStmt k) = some e →
      (categories.New render k env conf).r = none ∧
      (categories.New render k env conf).err ≠ none ∧
      (categories.New render k env conf).conn.map (fun cl => cl.issued)
        = some (c.issued ++ [categories.createTableStmt k])) ∧
    (∀ c e, conf.Validate env = none → env.Connect conf.pgConfig = .ok c →
      c.answer c.issued (categories.createTableStmt k) = none →
      c.answer (c.issued ++ [categories.createTableStmt k])
        (categories.indexStmt k k.NameKey) = some e →
      (categories.New render k env conf).r = none ∧
      (categories.New render k env conf).err ≠ none) ∧
    (∀ c e, conf.Validate env = none → env.Connect conf.pgConfig = .ok c →
      c.answer c.issued (categories.createTableStmt k) = none →
      c.answer (c.issued ++ [categories.createTableStmt k])
        (categories.indexStmt k k.NameKey) = none →
      c.answer (c.issued ++ [categories.createTableStmt k, categories.indexStmt k k.NameKey])
        (categories.indexStmt k k.CreateAt) = some e →
      (categories.New render k env conf).r = none ∧
      (categories.New render k env conf).err ≠ none) ∧
    (((categories.New render k env conf).r ≠ none ∧
        (categories.New render k env conf).err = none) ↔
      (conf.Validate env = none ∧ ∃ c, env.Connect conf.pgConfig = .ok c ∧
        c.answer c.issued (categories.createTableStmt k) = none ∧
        c.answer (c.issued ++ [categories.createTableStmt k])
          (categories.indexStmt k k.NameKey) = none ∧
        c.answer (c.issued ++ [categories.createTableStmt k,
            categories.indexStmt k k.NameKey])
          (categories.indexStmt k k.CreateAt) = none)) := by
  refine ⟨(New_result_cases render k env conf).1, ?_, ?_, ?_, ?_,
    (New_result_cases render k env conf).2⟩
  · intro e hv hc
    simp [categories.New, hv, hc]
  · intro c e hv hc h1
    simp [categories.New, hv, hc, categories.Repository.createTable, pg.Client.Exec, h1]
  · intro c e hv hc h1 h2
    simp [categories.New, hv, hc, categories.Repository.createTable, pg.Client.Exec, h1,
      categories.Repository.createIndexes, categories.indexFields,
      categories.createIndexesLoop, h2]
  · intro c e hv hc h1 h2 h3
    simp [categories.New, hv, hc, categories.Repository.createTable, pg.Client.Exec, h1,
      categories.Repository.createIndexes, categories.indexFields,
      categories.createIndexesLoop, h2, h3]

/-- When the engine refuses the table statement, `New` fails after that single
statement. -/
theorem New_fails_unless_every_step_succeeds_witness :
    (categories.New (fun _ => "") sampleKeys
        (sampleEnv (refusingClient (.plain "permission denied"))) sampleConfig).r = none ∧
    (categories.New (fun _ => "") sampleKeys
        (sampleEnv (refusingClient (.plain "permission denied"))) sampleConfig).err ≠ none ∧
    (categories.New (fun _ => "") sampleKeys
        (sampleEnv (refusingClient (.plain "permission denied"))) sampleConfig).conn.map
          (fun cl => cl.issued) = some ([] ++ [categories.createTableStmt sampleKeys]) :=
  (New_fails_unless_every_step_succeeds (fun _ => "") sampleKeys
    (sampleEnv (refusingClient (.plain "permission denied"))) sampleConfig).2.2.1
    (refusingClient (.plain "permission denied")) (.plain "permission denied") rfl rfl rfl

/-! ## Listing buildings -/

/-- A run appends the delivered buildings to the slice and adds their number to the
counter. -/
theorem Run_exec_delivered {B : Type} (run : http.Run B) (acc : http.Acc B) :
    (run.exec acc).1.buildings = acc.buildings ++ run.delivered ∧
    (run.exec acc).1.objectCounter = acc.objectCounter + run.delivered.length := by
  induction run generalizing acc with
  | done err => simp [http.Run.exec, http.Run.delivered]
  | call building next ih =>
    simp only [http.Run.exec, http.Run.delivered, http.getBuildingsCallback]
    obtain ⟨h1, h2⟩ := ih none
      { objectCounter := acc.objectCounter + 1, buildings := acc.buildings ++ [building] }
    refine ⟨by simp [h1], ?_⟩
    rw [h2]
    simp only [List.length_cons]
    push_cast
    ring

/-- C8: the callback of `getBuildings` always returns nil and keeps the counter equal
to the length of the slice, to which it appends the building; after the manager's
run the slice holds the delivered buildings in delivery order and the counter is
their number; and when the manager and the JSON encoding succeed, the limit-exceeded
warning is set if and only if at least `maxGettingObjects` buildings were delivered. -/
theorem getBuildings_limit_warning {L B : Type} (k : http.Consts)
    (parseLimit : http.Values → L) (GetBuildings : http.GetQuery L → http.Run B)
    (marshal : List B → Except GoError (List UInt8)) (req : http.Request) :
    (∀ (b : B) (acc : http.Acc B), (http.getBuildingsCallback b acc).2 = none) ∧
    (∀ (b : B) (acc : http.Acc B), acc.objectCounter = acc.buildings.length →
      (http.getBuildingsCallback b acc).1.buildings = acc.buildings ++ [b] ∧
      (http.getBuildingsCallback b acc).1.objectCounter
        = (http.getBuildingsCallback b acc).1.buildings.length) ∧
    ((GetBuildings (http.newGetBuildingsQuery k parseLimit req)).exec
        { objectCounter := 0, buildings := [] }).1.buildings
      = (GetBuildings (http.newGetBuildingsQuery k parseLimit req)).delivered ∧
    ((GetBuildings (http.newGetBuildingsQuery k parseLimit req)).exec
        { objectCounter := 0, buildings := [] }).1.objectCounter
      = (GetBuildings (http.newGetBuildingsQuery k parseLimit req)).delivered.length ∧
    (((GetBuildings (http.newGetBuildingsQuery k parseLimit req)).exec
        { objectCounter := 0, buildings := [] }).2 = none →
      ∀ data, marshal (GetBuildings (http.newGetBuildingsQuery k parseLimit req)).delivered
          = .ok data →
        (http.ResponseCall.SetWarning .NewLimitExceededWarning
            ∈ http.getBuildings k parseLimit GetBuildings marshal req ↔
          k.maxGettingObjects
            ≤ (GetBuildings (http.newGetBuildingsQuery k parseLimit req)).delivered.length)) := by
  have hd := Run_exec_delivered (GetBuildings (http.newGetBuildingsQuery k parseLimit req))
    { objectCounter := 0, buildings := [] }
  simp only [List.nil_append, zero_add] at hd
  refine ⟨fun b acc => rfl, fun b acc h => ?_, hd.1, hd.2, fun herr data hm => ?_⟩
  · simp [http.getBuildingsCallback, h]
  · unfold http.getBuildings
    simp only [herr, hd.1, hm, hd.2]
    split_ifs with h
    · simpa using h
    · simpa using h

/-- Three buildings delivered against a limit of two. -/
theorem getBuildings_limit_warning_witness :
    (http.ResponseCall.SetWarning .NewLimitExceededWarning
        ∈ http.getBuildings sampleConsts (fun _ => ())
            (fun _ => deliverAll ["b1", "b2", "b3"]) (fun _ => .ok [91, 93])
            (datesRequest "1" "2") ↔
      sampleConsts.maxGettingObjects
        ≤ ((fun (_ : http.GetQuery Unit) => deliverAll ["b1", "b2", "b3"])
            (http.newGetBuildingsQuery sampleConsts (fun _ => ())
              (datesRequest "1" "2"))).delivered.length) :=
  (getBuildings_limit_warning sampleConsts (fun _ => ())
    (fun _ => deliverAll ["b1", "b2", "b3"]) (fun _ => .ok [91, 93])
    (datesRequest "1" "2")).2.2.2.2 rfl [91, 93] rfl

/-! ## Adding a building -/

/-- C10: `newAddBuildingQuery` returns the zero-value query with `BodyReadErr` when
reading the body fails; otherwise with `BodyIsEmpty` when the body has length 0, and
the parser is not called; otherwise with `QueryParseErr` when the parser fails; and
it returns a nil error exactly when all three steps succeed, with the parsed query
whose `ReqId` is the request's id. -/
theorem newAddBuildingQuery_precedence {P : Type} [Inhabited P]
    (render : errors.Error → String)
    (NewAddQueryFromJson : List UInt8 → Except GoError (http.AddQuery P))
    (req : http.Request) :
    (∀ e, req.ReadAllBody.2 = some e →
      http.newAddBuildingQuery render NewAddQueryFromJson req =
        { query := http.AddQuery.zero,
          err := some (.typed { typ := .BodyReadErr, msg := e.Error render, details := [] }),
          parserCalls := [] }) ∧
    (req.ReadAllBody.2 = none → req.ReadAllBody.1.length = 0 →
      http.newAddBuildingQuery render NewAddQueryFromJson req =
        { query := http.AddQuery.zero,
          err := some (.typed { typ := .BodyIsEmpty, msg := "", details := [] }),
          parserCalls := [] }) ∧
    (∀ e, req.ReadAllBody.2 = none → req.ReadAllBody.1.length ≠ 0 →
      NewAddQueryFromJson req.ReadAllBody.1 = .error e →
      http.newAddBuildingQuery render NewAddQueryFromJson req =
        { query := http.AddQuery.zero,
          err := some (.typed { typ := .QueryParseErr, msg := e.Error render, details := [] }),
          parserCalls := [req.ReadAllBody.1] }) ∧
    (∀ q, req.ReadAllBody.2 = none → req.ReadAllBody.1.length ≠ 0 →
      NewAddQueryFromJson req.ReadAllBody.1 = .ok q →
      http.newAddBuildingQuery render NewAddQueryFromJson req =
        { query := { q with ReqId := req.Id }, err := none,
          parserCalls := [req.ReadAllBody.1] }) ∧
    ((http.newAddBuildingQuery render NewAddQueryFromJson req).err = none →
      req.ReadAllBody.2 = none ∧ req.ReadAllBody.1.length ≠ 0 ∧
      ∃ q, NewAddQueryFromJson req.ReadAllBody.1 = .ok q) := by
  rcases hb : req.ReadAllBody with ⟨body, err⟩
  refine ⟨fun e h => ?_, fun h hl => ?_, fun e h hl hp => ?_, fun q h hl hp => ?_, ?_⟩
  · simp only at h
    simp [http.newAddBuildingQuery, hb, h, errors.ErrorType.New]
  · simp only at h hl
    simp [http.newAddBuildingQuery, hb, h, hl, errors.ErrorType.New]
  · simp only at h hl hp
    simp [http.newAddBuildingQuery, hb, h, hl, hp, errors.ErrorType.New]
  · simp only at h hl hp
    simp [http.newAddBuildingQuery, hb, h, hl, hp]
  · simp only [http.newAddBuildingQuery, hb]
    cases err with
    | some e => simp
    | none =>
      by_cases hl : body.length = 0
      · simp [hl]
      · cases hp : NewAddQueryFromJson body with
        | error e => simp [hl, hp]
        | ok q => simp [hl, hp]

/-- An empty body that was read without error is answered with `BodyIsEmpty`. -/
theorem newAddBuildingQuery_precedence_witness :
    http.newAddBuildingQuery (fun _ => "") sampleAddQueryFromJson (bodyRequest [] none) =
      { query := http.AddQuery.zero,
        err := some (.typed { typ := .BodyIsEmpty, msg := "", details := [] }),
        parserCalls := [] } :=
  (newAddBuildingQuery_precedence (fun _ => "") sampleAddQueryFromJson
    (bodyRequest [] none)).2.1 rfl rfl
